import Mathlib

/-!
Verification of the porkpy CLI client (src/porkpy.py): credential
resolution, request construction and response filtering, embedded
shallowly in Lean.  HTTP effects are modelled by returning the request
that would be sent (URL plus JSON payload); a raised Python exception is
modelled by an error value.  JSON objects are association lists in
insertion order, with Python `dict` update semantics.
-/

set_option autoImplicit false

namespace Porkpy

/-- A JSON value, as far as porkpy inspects one: strings, `null`
(a Python `None` serialized by `json.dumps`), and objects. -/
inductive Json where
  | null : Json
  | str : String → Json
  | obj : List (String × Json) → Json
  deriving Repr

/-- A parsed JSON object: key/value pairs in insertion order. -/
abbrev JsonObj := List (String × Json)

/-- `d[k]` lookup on a Python dict (keys are unique, first match). -/
def lookupKey : JsonObj → String → Option Json
  | [], _ => none
  | (k', v) :: rest, k => if k' = k then some v else lookupKey rest k

/-- `d[k] = v` on a Python dict: replace in place if the key exists,
else append, preserving insertion order. -/
def setKey : JsonObj → String → Json → JsonObj
  | [], k, v => [(k, v)]
  | (k', v') :: rest, k, v =>
      if k' = k then (k, v) :: rest else (k', v') :: setKey rest k v

/-- Python `{**a, **b}`: start from `a`, then insert every entry of `b`. -/
def dictMerge (a b : JsonObj) : JsonObj :=
  b.foldl (fun acc kv => setKey acc kv.1 kv.2) a

/-- `json_resp["pricing"][d]`-style lookup inside a JSON value; a missing
key raises `KeyError`, modelled as `none`. -/
def jsonLookup : Json → String → Option Json
  | .obj fields, k => lookupKey fields k
  | _, _ => none

/-- Python `x == "SUCCESS"` on a parsed JSON value: true exactly when
`x` is the string `"SUCCESS"`. -/
def isSuccess : Json → Bool
  | .str s => s == "SUCCESS"
  | _ => false

/-- `API_ENDPOINT` (src/porkpy.py line 38). -/
def API_ENDPOINT : String := "https://porkbun.com/api/json/v3"

/-- An HTTP POST the tool would issue: target URL and the JSON payload
serialized into `data` (`none` when no body is sent). -/
structure HttpRequest where
  url : String
  body : Option JsonObj
  deriving Repr

/-- The loop of the `pricing` command (src/porkpy.py lines 369-375):
for each requested TLD `d`, `output["pricing"] = {d: json_resp["pricing"][d]}`,
with `except KeyError: continue`. -/
def pricingLoop (resp : JsonObj) : List String → JsonObj → JsonObj
  | [], out => out
  | d :: rest, out =>
      match (lookupKey resp "pricing").bind (fun p => jsonLookup p d) with
      | some price => pricingLoop resp rest (setKey out "pricing" (Json.obj [(d, price)]))
      | none => pricingLoop resp rest out

/-- The `pricing` command (src/porkpy.py lines 352-379) applied to the
parsed upstream response `resp` and the tuple of `--tld` flags: the JSON
object it prints.  `none` models the uncaught `KeyError` when the
response lacks a `status` field. -/
def pricingOutput (resp : JsonObj) (tld : List String) : Option JsonObj :=
  match lookupKey resp "status" with
  | none => none
  | some s =>
      if isSuccess s then
        if tld.length == 0 then
          some resp
        else
          some (pricingLoop resp tld (setKey [] "status" s))
      else
        some []

/-- The request the `pricing` command issues (src/porkpy.py line 361). -/
def pricingRequest : HttpRequest :=
  { url := API_ENDPOINT ++ "/pricing/get", body := none }

/-- Python `str.split(sep)` on the characters of the string: splits at
every occurrence of `sep`, keeping empty pieces. -/
def pySplit (sep : Char) : List Char → List (List Char)
  | [] => [[]]
  | c :: rest =>
      if c = sep then
        [] :: pySplit sep rest
      else
        match pySplit sep rest with
        | [] => [[c]]
        | w :: ws => (c :: w) :: ws

/-- `key, secret = secrets.split(":")` (src/porkpy.py line 195): tuple
unpacking succeeds only when the split yields exactly two pieces;
otherwise Python raises `ValueError`, modelled as `none`. -/
def splitTwo (s : List Char) : Option (List Char × List Char) :=
  match pySplit ':' s with
  | [k, v] => some (k, v)
  | _ => none

/-- Outcome of `PorkAuth.__init__`: a resolved payload, or a raised
exception (`ValueError` from unpacking the secrets string, or an
`OSError`/`JSONDecodeError` from opening and parsing the file). -/
inductive AuthResolution where
  | ok : JsonObj → AuthResolution
  | unpackError : AuthResolution
  | fileError : AuthResolution
  deriving Repr

/-- The `PORKPY_API` / `PORKPY_SECRET` environment variables
(`os.getenv` returns `None` when unset). -/
structure Env where
  porkpyApi : Option String
  porkpySecret : Option String

/-- A value read from `os.getenv`, as it appears in the payload. -/
def optJson : Option String → Json
  | none => Json.null
  | some s => Json.str s

/-- Python truthiness of an `Optional[str]`: `None` and `""` are falsy. -/
def truthyStr : Option String → Bool
  | none => false
  | some s => !(s == "")

/-- The secrets branch of `PorkAuth.__init__` (src/porkpy.py
lines 194-196): split on `":"`, unpack into `key, secret`, and build
`{"apikey": key, "secretapikey": secret}`. -/
def authFromSecrets (s : String) : AuthResolution :=
  match splitTwo s.toList with
  | some (k, sec) => AuthResolution.ok [("apikey", Json.str ⟨k⟩), ("secretapikey", Json.str ⟨sec⟩)]
  | none => AuthResolution.unpackError

/-- `PorkAuth.__init__` (src/porkpy.py lines 191-204).  `fs` maps a file
path to its parsed JSON object (`none` when the file is missing,
unreadable or not valid JSON).  Returns the resolution outcome together
with the list of file paths read. -/
def porkAuthInit (secrets file : Option String) (fs : String → Option JsonObj)
    (env : Env) : AuthResolution × List String :=
  if truthyStr secrets then
    (authFromSecrets (secrets.getD ""), [])
  else if truthyStr file then
    match fs (file.getD "") with
    | some obj => (AuthResolution.ok (dictMerge [] obj), [file.getD ""])
    | none => (AuthResolution.fileError, [file.getD ""])
  else
    (AuthResolution.ok [("secretapikey", optJson env.porkpySecret), ("apikey", optJson env.porkpyApi)], [])

/-- The local `endpoint` variable of `PorkAuth.test_auth` (src/porkpy.py
lines 207-210): `API_ENDPOINT`, with the host replaced by
`api-ipv4.porkbun.com` when `ipv4` is set. -/
def testAuthEndpoint (ipv4 : Bool) : String :=
  if ipv4 then API_ENDPOINT.replace "porkbun.com" "api-ipv4.porkbun.com" else API_ENDPOINT

/-- The request and result of `PorkAuth.test_auth`, continuing the above:
the payload is posted to `API_ENDPOINT + "/ping"` (the local `endpoint`
variable is not used), and success is `response["status"] == "SUCCESS"`
(`none` models the `KeyError` when the response lacks `status`). -/
def testAuth (auth : JsonObj) (ipv4 : Bool) (resp : JsonObj) : HttpRequest × Option Bool :=
  let _endpoint := testAuthEndpoint ipv4
  ({ url := API_ENDPOINT ++ "/ping", body := some auth },
   (lookupKey resp "status").map (fun s => isSuccess s))

/-- `PorkRecord.retrieve` (src/porkpy.py lines 228-242): both type and
subdomain given posts to `/dns/retrieveByNameType/...`, else to
`/dns/retrieve/{domain}`, with the auth payload as body. -/
def porkRecordRetrieve (domain : String) (auth : JsonObj) (ty sub : Option String) : HttpRequest :=
  match ty, sub with
  | some t, some s =>
      { url := API_ENDPOINT ++ "/dns/retrieveByNameType/" ++ domain ++ "/" ++ t ++ "/" ++ s
      , body := some auth }
  | _, _ =>
      { url := API_ENDPOINT ++ "/dns/retrieve/" ++ domain, body := some auth }

/-- `PorkRecord.retrieve_ssl` (src/porkpy.py lines 244-249). -/
def porkRecordRetrieveSsl (domain : String) (auth : JsonObj) : HttpRequest :=
  { url := API_ENDPOINT ++ "/ssl/retrieve/" ++ domain, body := some auth }

/-- The dict comprehension of `PorkRecord.create_record` (src/porkpy.py
lines 260-270): keep the fields whose value `is not None`, in order. -/
def filterNonNull (fields : List (String × Option String)) : JsonObj :=
  fields.foldl (fun acc kv =>
    match kv.2 with
    | some v => setKey acc kv.1 (Json.str v)
    | none => acc) []

/-- The outbound payload of `PorkRecord.create_record` (src/porkpy.py
lines 260-271): `{**AUTH_PAYLOAD, **payload}`. -/
def createRecordPayload (auth : JsonObj) (ty content : String)
    (name ttl priority : Option String) : JsonObj :=
  dictMerge auth (filterNonNull
    [("type", some ty), ("content", some content), ("name", name), ("ttl", ttl), ("prio", priority)])

/-- `PorkRecord.create_record` (src/porkpy.py lines 251-277). -/
def createRecord (domain : String) (auth : JsonObj) (ty content : String)
    (name ttl priority : Option String) : HttpRequest :=
  { url := API_ENDPOINT ++ "/dns/create/" ++ domain
  , body := some (createRecordPayload auth ty content name ttl priority) }

/-- The string returned by `PorkRecord.edit_record` (src/porkpy.py
line 290). -/
def EDIT_RECORD_MESSAGE : String :=
  "Edit routes currently not working. To edit please pull down the pre-existing record, delete it, then create it with modified values."

/-- `PorkRecord.edit_record` (src/porkpy.py lines 279-290): returns the
fixed advisory string immediately; everything after the `return` is
commented out, so no request is built.  The result pairs the returned
string with the (empty) list of requests issued. -/
def editRecord (_id _ty _subdomain _content _name _ttl _priority : String) :
    String × List HttpRequest :=
  (EDIT_RECORD_MESSAGE, [])

/-- `PorkRecord.delete_record` (src/porkpy.py lines 334-341): posts to
`/dns/delete/{domain}/{id}` when `id is not None`, else falls through
returning `None` with no request. -/
def deleteRecord (domain : String) (auth : JsonObj) (id : Option String) : Option HttpRequest :=
  match id with
  | some i =>
      some { url := API_ENDPOINT ++ "/dns/delete/" ++ domain ++ "/" ++ i, body := some auth }
  | none => none

/-- A `click.BadOptionUsage` raised by a command, tagged with its
`option_name`. -/
inductive CliError where
  | badOptionUsage : String → CliError
  deriving Repr, DecidableEq

/-- The `domain info` command `domain_retrieve_records` (src/porkpy.py
lines 409-442), given the resolved auth payload: validates the flag
combination (raising `click.BadOptionUsage` before any request), then
dispatches to `retrieve_ssl` or `retrieve`. -/
def domainRetrieveRecords (domain : String) (ssl : Bool) (ty sub : Option String)
    (auth : JsonObj) : Except CliError HttpRequest :=
  if (ty.isNone || sub.isNone) && ty != sub then
    Except.error (CliError.badOptionUsage (if ty.isNone then "type" else "subdomain"))
  else if ssl then
    Except.error (CliError.badOptionUsage "ssl")
  else if ssl then
    Except.ok (porkRecordRetrieveSsl domain auth)
  else if ty.isSome && sub.isSome then
    Except.ok (porkRecordRetrieve domain auth ty sub)
  else
    Except.ok (porkRecordRetrieve domain auth none none)

/-- The string printed by the `domain edit` command (src/porkpy.py
lines 479-481). -/
def DOMAIN_EDIT_MESSAGE : String :=
  "Edit route currently not working, please use the Porkbun website to edit pre-existing records."

/-- The `domain edit` command `domain_edit_records` (src/porkpy.py
lines 459-496): prints the fixed advisory string; the entire former body
is commented out, so no auth is resolved and no request is issued. -/
def domainEditRecords (_domain : String) (_id _ty _subdomain _content _name _ttl _priority : Option String) :
    String × List HttpRequest :=
  (DOMAIN_EDIT_MESSAGE, [])

/-- The `domain delete` command `domain_delete_records` (src/porkpy.py
lines 499-521), given the resolved auth payload: checks `id is None`
first, then `confirm is False`, raising `click.BadOptionUsage` before
any request; otherwise delegates to `delete_record`. -/
def domainDeleteRecords (domain : String) (id : Option String) (confirm : Bool)
    (auth : JsonObj) : Except CliError (Option HttpRequest) :=
  if id.isNone then
    Except.error (CliError.badOptionUsage "id")
  else if confirm == false then
    Except.error (CliError.badOptionUsage "confirm")
  else
    Except.ok (deleteRecord domain auth id)

/-! ## Dictionary lemmas -/

theorem lookupKey_setKey (m : JsonObj) (k : String) (v : Json) (k' : String) :
    lookupKey (setKey m k v) k' = if k = k' then some v else lookupKey m k' := by
  induction m with
  | nil => rfl
  | cons p rest ih =>
    obtain ⟨a, b⟩ := p
    by_cases hak : a = k
    · subst hak
      by_cases hk' : a = k'
      · subst hk'
        simp [setKey, lookupKey]
      · simp [setKey, lookupKey, hk']
    · by_cases hk' : a = k'
      · subst hk'
        have hkk' : ¬ k = a := fun h => hak h.symm
        simp [setKey, lookupKey, hak, hkk']
      · simp [setKey, lookupKey, hak, hk', ih]

theorem lookupKey_eq_none_of_not_mem (m : JsonObj) (k : String)
    (h : ∀ p ∈ m, p.1 ≠ k) : lookupKey m k = none := by
  induction m with
  | nil => rfl
  | cons p rest ih =>
    obtain ⟨a, b⟩ := p
    have ha : a ≠ k := h (a, b) (by simp)
    simp only [lookupKey, if_neg ha]
    exact ih fun q hq => h q (by simp [hq])

theorem setKey_of_not_mem (m : JsonObj) (k : String) (v : Json)
    (h : ∀ p ∈ m, p.1 ≠ k) : setKey m k v = m ++ [(k, v)] := by
  induction m with
  | nil => rfl
  | cons p rest ih =>
    obtain ⟨a, b⟩ := p
    have ha : a ≠ k := h (a, b) (by simp)
    simp only [setKey, if_neg ha, List.cons_append, List.cons.injEq, true_and]
    exact ih fun q hq => h q (by simp [hq])

theorem foldl_setKey_append (b : JsonObj) (a : JsonObj)
    (hnd : (b.map Prod.fst).Nodup)
    (hdisj : ∀ p ∈ a, ∀ q ∈ b, p.1 ≠ q.1) :
    b.foldl (fun acc kv => setKey acc kv.1 kv.2) a = a ++ b := by
  induction b generalizing a with
  | nil => simp
  | cons q rest ih =>
    simp only [List.foldl_cons]
    rw [setKey_of_not_mem a q.1 q.2 (fun p hp => hdisj p hp q (by simp))]
    rw [ih (a ++ [q]) (by simpa using hnd.of_cons)]
    · simp
    · intro p hp r hr
      rcases List.mem_append.mp hp with hpa | hpq
      · exact hdisj p hpa r (by simp [hr])
      · have hpq' : p = q := by simpa using hpq
        rw [hpq']
        have hq1 : q.1 ∉ rest.map Prod.fst := by
          simpa using (List.nodup_cons.mp hnd).1
        intro hcontra
        apply hq1
        rw [hcontra]
        exact List.mem_map_of_mem Prod.fst hr

theorem dictMerge_nil_of_nodup (b : JsonObj) (hnd : (b.map Prod.fst).Nodup) :
    dictMerge [] b = b := by
  have := foldl_setKey_append b [] hnd (by simp)
  simpa [dictMerge] using this

theorem lookupKey_dictMerge (a b : JsonObj) (hnd : (b.map Prod.fst).Nodup) (k : String) :
    lookupKey (dictMerge a b) k =
      match lookupKey b k with
      | some v => some v
      | none => lookupKey a k := by
  induction b generalizing a with
  | nil => simp [dictMerge, lookupKey]
  | cons q rest ih =>
    obtain ⟨x, y⟩ := q
    have hx : x ∉ rest.map Prod.fst := by simpa using (List.nodup_cons.mp hnd).1
    have hrest := (List.nodup_cons.mp hnd).2
    simp only [dictMerge, List.foldl_cons]
    have := ih (setKey a x y) hrest
    simp only [dictMerge] at this
    rw [this]
    by_cases hxk : x = k
    · subst hxk
      have : lookupKey rest x = none :=
        lookupKey_eq_none_of_not_mem rest x
          (fun p hp he => hx (he ▸ List.mem_map_of_mem Prod.fst hp))
      simp [lookupKey, this, lookupKey_setKey]
    · simp only [lookupKey, if_neg hxk]
      cases h : lookupKey rest k with
      | some v => simp
      | none => simp [lookupKey_setKey, hxk]

/-! ## Characterizing the secrets split -/

theorem pySplit_ne_nil (sep : Char) (s : List Char) : pySplit sep s ≠ [] := by
  induction s with
  | nil => simp [pySplit]
  | cons c rest ih =>
    by_cases h : c = sep
    · simp [pySplit, h]
    · simp only [pySplit, if_neg h]
      cases hs : pySplit sep rest with
      | nil => simp
      | cons w ws => simp

theorem pySplit_eq_singleton (sep : Char) (s v : List Char) :
    pySplit sep s = [v] ↔ s = v ∧ sep ∉ v := by
  induction s generalizing v with
  | nil =>
    constructor
    · intro h
      have hv : [] = v := by simpa [pySplit] using h
      exact ⟨hv, by simp [← hv]⟩
    · rintro ⟨rfl, -⟩
      rfl
  | cons c rest ih =>
    by_cases hc : c = sep
    · subst hc
      have hred : pySplit c (c :: rest) = [] :: pySplit c rest := by
        simp [pySplit]
      rw [hred]
      constructor
      · intro h
        have h2 : pySplit c rest = [] := by
          have := (List.cons.injEq [] (pySplit c rest) v []).mp h
          exact this.2
        exact absurd h2 (pySplit_ne_nil c rest)
      · rintro ⟨rfl, hv⟩
        exact absurd (by simp : c ∈ c :: rest) hv
    · cases hsp : pySplit sep rest with
      | nil => exact absurd hsp (pySplit_ne_nil sep rest)
      | cons w ws =>
        have hred : pySplit sep (c :: rest) = (c :: w) :: ws := by
          simp only [pySplit, if_neg hc, hsp]
        rw [hred]
        constructor
        · intro h
          obtain ⟨hw, hws⟩ : c :: w = v ∧ ws = [] := by simpa using h
          have hrest : pySplit sep rest = [w] := by rw [hsp, hws]
          obtain ⟨hr, hwmem⟩ := (ih w).mp hrest
          constructor
          · rw [← hw, hr]
          · rw [← hw]
            simp [hwmem]
            exact fun he => hc he.symm
        · rintro ⟨rfl, hv⟩
          have hrest : pySplit sep rest = [rest] :=
            (ih rest).mpr ⟨rfl, fun hm => hv (by simp [hm])⟩
          rw [hsp] at hrest
          obtain ⟨hw, hws⟩ : w = rest ∧ ws = [] := by simpa using hrest
          rw [hw, hws]

theorem pySplit_eq_pair (sep : Char) (s k v : List Char) :
    pySplit sep s = [k, v] ↔ s = k ++ sep :: v ∧ sep ∉ k ∧ sep ∉ v := by
  induction s generalizing k with
  | nil =>
    constructor
    · intro h
      exact absurd h (by simp [pySplit])
    · rintro ⟨hs, -, -⟩
      exact absurd hs (by simp)
  | cons c rest ih =>
    by_cases hc : c = sep
    · subst hc
      have hred : pySplit c (c :: rest) = [] :: pySplit c rest := by
        simp [pySplit]
      rw [hred]
      constructor
      · intro h
        obtain ⟨hk, hrest⟩ : [] = k ∧ pySplit c rest = [v] := by simpa using h
        obtain ⟨hr, hv⟩ := (pySplit_eq_singleton c rest v).mp hrest
        refine ⟨?_, by simp [← hk], hv⟩
        rw [← hk, hr]
        simp
      · rintro ⟨hs, hk, hv⟩
        cases k with
        | nil =>
          obtain hrest : rest = v := by simpa using hs
          simp [(pySplit_eq_singleton c rest v).mpr ⟨hrest, hv⟩]
        | cons a k2 =>
          obtain ⟨hca, -⟩ : c = a ∧ rest = k2 ++ c :: v := by simpa using hs
          exact absurd (by simp [hca] : c ∈ a :: k2) hk
    · cases hsp : pySplit sep rest with
      | nil => exact absurd hsp (pySplit_ne_nil sep rest)
      | cons w ws =>
        have hred : pySplit sep (c :: rest) = (c :: w) :: ws := by
          simp only [pySplit, if_neg hc, hsp]
        rw [hred]
        constructor
        · intro h
          obtain ⟨hk, hws⟩ : c :: w = k ∧ ws = [v] := by simpa using h
          have hpair : pySplit sep rest = [w, v] := by rw [hsp, hws]
          obtain ⟨hr, hw, hv⟩ := (ih w).mp hpair
          refine ⟨?_, ?_, hv⟩
          · rw [← hk, hr]
            simp
          · rw [← hk]
            simp [hw]
            exact fun he => hc he.symm
        · rintro ⟨hs, hk, hv⟩
          cases k with
          | nil =>
            exfalso
            obtain ⟨hcsep, -⟩ : c = sep ∧ rest = v := by simpa using hs
            exact hc hcsep
          | cons a k2 =>
            obtain ⟨hca, hrest⟩ : c = a ∧ rest = k2 ++ sep :: v := by simpa using hs
            have hk2 : sep ∉ k2 := fun hm => hk (by simp [hm])
            have hpair : pySplit sep rest = [k2, v] := (ih k2).mpr ⟨hrest, hk2, hv⟩
            rw [hsp] at hpair
            obtain ⟨hw, hws⟩ : w = k2 ∧ ws = [v] := by simpa using hpair
            rw [hca, hw, hws]

theorem splitTwo_eq_some (s k v : List Char) :
    splitTwo s = some (k, v) ↔ pySplit ':' s = [k, v] := by
  constructor
  · intro h
    unfold splitTwo at h
    cases hs : pySplit ':' s with
    | nil =>
      rw [hs] at h
      simp at h
    | cons w ws =>
      cases ws with
      | nil =>
        rw [hs] at h
        simp at h
      | cons x xs =>
        cases xs with
        | nil =>
          rw [hs] at h
          obtain ⟨hw, hx⟩ : w = k ∧ x = v := by simpa using h
          rw [hw, hx]
        | cons y ys =>
          rw [hs] at h
          simp at h
  · intro h
    unfold splitTwo
    rw [h]

/-! ## Claim theorems -/

/-- C1: the `pricing` command, on a `SUCCESS` response carrying pricing
for both `com` and `net` and the filter `("com", "net")`, outputs a
pricing mapping holding only the `net` entry: each loop iteration
executes `output["pricing"] = {d: json_resp["pricing"][d]}`, overwriting
the previous TLD's entry instead of merging, so the claim (and the
command's docstring) that all requested present TLDs are returned fails
on the code. -/
theorem pricing_filter_overwrites_to_last :
    pricingOutput
      [("status", Json.str "SUCCESS"),
       ("pricing", Json.obj [("com", Json.str "9.68"), ("net", Json.str "11.24")])]
      ["com", "net"]
    = some [("status", Json.str "SUCCESS"),
            ("pricing", Json.obj [("net", Json.str "11.24")])] := rfl

/-- C3: the `domain info` command rejects `--ssl` unconditionally — the
guard `if kwargs["ssl"]` at src/porkpy.py line 425 raises
`BadOptionUsage` whenever the flag is set, even with neither `--type` nor
`--subdomain` given — so the `retrieve_ssl` branch at line 434 is
unreachable and no invocation ever posts to `/ssl/retrieve/{domain}`,
contradicting the command's docstring and the claim. -/
theorem domain_info_ssl_always_rejected :
    domainRetrieveRecords "example.com" true none none []
      = Except.error (CliError.badOptionUsage "ssl")
    ∧ ∀ (domain : String) (ty sub : Option String) (auth : JsonObj),
        ∃ e, domainRetrieveRecords domain true ty sub auth = Except.error e := by
  refine ⟨rfl, ?_⟩
  intro domain ty sub auth
  unfold domainRetrieveRecords
  split
  · exact ⟨_, rfl⟩
  · exact ⟨_, rfl⟩

/-- C7: `domain delete` raises `BadOptionUsage` before any request when
`--id` is absent (checked first, whatever `--confirm` is) or when
`--confirm` is not given; with both present it posts to
`/dns/delete/{domain}/{id}` with the auth payload as body. -/
theorem delete_requires_id_confirm (domain : String) (id : Option String)
    (confirm : Bool) (auth : JsonObj) :
    (id = none →
      domainDeleteRecords domain id confirm auth
        = Except.error (CliError.badOptionUsage "id"))
    ∧ (∀ i, id = some i → confirm = false →
        domainDeleteRecords domain id confirm auth
          = Except.error (CliError.badOptionUsage "confirm"))
    ∧ (∀ i, id = some i → confirm = true →
        domainDeleteRecords domain id confirm auth
          = Except.ok (some
              { url := API_ENDPOINT ++ "/dns/delete/" ++ domain ++ "/" ++ i
              , body := some auth })) := by
  refine ⟨?_, ?_, ?_⟩
  · intro h
    subst h
    rfl
  · intro i hi hc
    subst hi
    subst hc
    rfl
  · intro i hi hc
    subst hi
    subst hc
    rfl

/-- C9: both the `edit` operation `PorkRecord.edit_record` and the
`domain edit` command return their fixed advisory string for any
arguments whatsoever, and issue no HTTP request. -/
theorem edit_disabled_noop (id ty subdomain content name ttl priority : String)
    (cdomain : String) (cid cty csub ccontent cname cttl cprio : Option String) :
    editRecord id ty subdomain content name ttl priority = (EDIT_RECORD_MESSAGE, [])
    ∧ domainEditRecords cdomain cid cty csub ccontent cname cttl cprio
        = (DOMAIN_EDIT_MESSAGE, []) :=
  ⟨rfl, rfl⟩

/-- C10: `test_auth` posts the credential payload to
`API_ENDPOINT + "/ping"` on the primary host whatever `ipv4` is — the
whole result is identical for `ipv4 = true` and `ipv4 = false`, the
computed ipv4-specific endpoint (`https://api-ipv4.porkbun.com/...`)
never being used — and reports success exactly when the response's
`status` field equals `"SUCCESS"`. -/
theorem test_auth_ipv4_no_effect (auth resp : JsonObj) (ipv4 : Bool) :
    (testAuth auth ipv4 resp).1 = { url := API_ENDPOINT ++ "/ping", body := some auth }
    ∧ testAuth auth true resp = testAuth auth false resp
    ∧ (testAuth auth true resp).1.url = "https://porkbun.com/api/json/v3/ping"
    ∧ (∀ s, lookupKey resp "status" = some s →
        ((testAuth auth ipv4 resp).2 = some true ↔ isSuccess s = true)) := by
  refine ⟨rfl, rfl, rfl, ?_⟩
  intro s hs
  simp [testAuth, hs]

/-- C8: `domain info` with exactly one of `--type`/`--subdomain` raises
`BadOptionUsage` (naming the missing option) before any request, for any
state of the `--ssl` flag; a plain (no `--ssl`) invocation with both set
posts to `/dns/retrieveByNameType/{domain}/{type}/{subdomain}`, and with
neither set to `/dns/retrieve/{domain}`, each with the auth payload. -/
theorem retrieve_type_name_spec (domain : String) (ty sub : Option String)
    (auth : JsonObj) (ssl : Bool) :
    (∀ s, ty = none → sub = some s →
      domainRetrieveRecords domain ssl ty sub auth
        = Except.error (CliError.badOptionUsage "type"))
    ∧ (∀ t, ty = some t → sub = none →
        domainRetrieveRecords domain ssl ty sub auth
          = Except.error (CliError.badOptionUsage "subdomain"))
    ∧ (∀ t s, ty = some t → sub = some s →
        domainRetrieveRecords domain false ty sub auth
          = Except.ok
              { url := API_ENDPOINT ++ "/dns/retrieveByNameType/" ++ domain ++ "/" ++ t ++ "/" ++ s
              , body := some auth })
    ∧ (ty = none → sub = none →
        domainRetrieveRecords domain false ty sub auth
          = Except.ok { url := API_ENDPOINT ++ "/dns/retrieve/" ++ domain, body := some auth }) := by
  refine ⟨?_, ?_, ?_, ?_⟩
  · intro s hty hsub
    subst hty
    subst hsub
    rfl
  · intro t hty hsub
    subst hty
    subst hsub
    rfl
  · intro t s hty hsub
    subst hty
    subst hsub
    rfl
  · intro hty hsub
    subst hty
    subst hsub
    rfl

/-- C4 counterexample: a credentials file whose JSON object holds only
`apikey` (no `secretapikey`) resolves successfully — `PorkAuth.__init__`
copies the parsed object into the payload with no key-presence check —
where the claim requires resolution to fail. -/
theorem credfile_missing_key_counterexample :
    porkAuthInit none (some "porkpy.json")
      (fun p => if p == "porkpy.json" then some [("apikey", Json.str "ak_1")] else none)
      { porkpyApi := none, porkpySecret := none }
    = (AuthResolution.ok [("apikey", Json.str "ak_1")], ["porkpy.json"]) := rfl

/-- C4 as amended: a missing, unreadable or invalid-JSON file makes
resolution fail (a raised exception), and a file that parses as a JSON
object resolves to exactly its entries — when both `apikey` and
`secretapikey` are present those exact values are returned — but key
presence is never validated: the parsed object is taken verbatim. -/
theorem credfile_resolution_spec (path : String) (fs : String → Option JsonObj) (env : Env) :
    (path ≠ "" → fs path = none →
      porkAuthInit none (some path) fs env = (AuthResolution.fileError, [path]))
    ∧ (∀ obj, path ≠ "" → fs path = some obj → (obj.map Prod.fst).Nodup →
        porkAuthInit none (some path) fs env = (AuthResolution.ok obj, [path]))
    ∧ (∀ obj a s, path ≠ "" → fs path = some obj → (obj.map Prod.fst).Nodup →
        lookupKey obj "apikey" = some a → lookupKey obj "secretapikey" = some s →
        ∃ p, porkAuthInit none (some path) fs env = (AuthResolution.ok p, [path])
          ∧ lookupKey p "apikey" = some a ∧ lookupKey p "secretapikey" = some s) := by
  refine ⟨?_, ?_, ?_⟩
  · intro hpath hfs
    simp [porkAuthInit, truthyStr, hpath, hfs]
  · intro obj hpath hfs hnd
    simp [porkAuthInit, truthyStr, hpath, hfs, dictMerge_nil_of_nodup obj hnd]
  · intro obj a s hpath hfs hnd ha hs
    refine ⟨obj, ?_, ha, hs⟩
    simp [porkAuthInit, truthyStr, hpath, hfs, dictMerge_nil_of_nodup obj hnd]

/-- C5 counterexample: with the explicit secret string given but empty
(`-s ""`) alongside a credentials file, `if secrets:` is falsy, so the
file IS read and its values returned — against the claim that whenever
an explicit secret string is given its values win and the file is never
read. -/
theorem precedence_empty_secrets_counterexample :
    porkAuthInit (some "") (some "porkpy.json")
      (fun p => if p == "porkpy.json"
        then some [("apikey", Json.str "file_key"), ("secretapikey", Json.str "file_secret")]
        else none)
      { porkpyApi := some "env_key", porkpySecret := some "env_secret" }
    = (AuthResolution.ok
        [("apikey", Json.str "file_key"), ("secretapikey", Json.str "file_secret")],
       ["porkpy.json"]) := rfl

/-- C5 as amended: precedence is fixed and total over truthiness — a
given, non-empty secret string wins (the outcome depends only on the
string: file path, file contents and environment are irrelevant, and no
file is read); else a given, non-empty file path wins (the environment
and the untruthy secret are irrelevant, exactly that file is read); else
the environment variables are used.  A given-but-empty string or path is
treated as absent, and no branch merges credentials from two sources. -/
theorem cred_precedence_spec (secrets file : Option String)
    (fs fs' : String → Option JsonObj) (env env' : Env) :
    (truthyStr secrets = true →
        porkAuthInit secrets file fs env = porkAuthInit secrets none fs' env'
        ∧ (porkAuthInit secrets file fs env).1 = authFromSecrets (secrets.getD "")
        ∧ (porkAuthInit secrets file fs env).2 = [])
    ∧ (truthyStr secrets = false → truthyStr file = true →
        porkAuthInit secrets file fs env = porkAuthInit none file fs env'
        ∧ (porkAuthInit secrets file fs env).2 = [file.getD ""])
    ∧ (truthyStr secrets = false → truthyStr file = false →
        porkAuthInit secrets file fs env
          = (AuthResolution.ok
              [("secretapikey", optJson env.porkpySecret),
               ("apikey", optJson env.porkpyApi)], [])) := by
  refine ⟨?_, ?_, ?_⟩
  · intro h
    refine ⟨?_, ?_, ?_⟩ <;> simp [porkAuthInit, h]
  · intro h1 h2
    have hn : truthyStr none = false := rfl
    constructor
    · simp [porkAuthInit, h1, h2, hn]
    · cases hm : fs (file.getD "") with
      | some obj => simp [porkAuthInit, h1, h2, hm]
      | none => simp [porkAuthInit, h1, h2, hm]
  · intro h1 h2
    simp [porkAuthInit, h1, h2]

/-- C6: `create_record` posts to `/dns/create/{domain}` a payload that
maps `type` and `content` to the given values, maps `name`/`ttl`/`prio`
to the respective optional field when present and omits the key
otherwise (falling back to whatever the credential payload has for it —
for ordinary credential payloads, nothing), and maps every other key as
the credential payload does; in particular the claim's concrete
scenario produces exactly the four-key payload. -/
theorem create_record_spec (domain ty content : String)
    (name ttl priority : Option String) (auth : JsonObj) :
    (createRecord domain auth ty content name ttl priority).url
      = API_ENDPOINT ++ "/dns/create/" ++ domain
    ∧ (∀ k, lookupKey (createRecordPayload auth ty content name ttl priority) k
        = if "type" = k then some (Json.str ty)
          else if "content" = k then some (Json.str content)
          else if "name" = k then
            match name with
            | some v => some (Json.str v)
            | none => lookupKey auth k
          else if "ttl" = k then
            match ttl with
            | some v => some (Json.str v)
            | none => lookupKey auth k
          else if "prio" = k then
            match priority with
            | some v => some (Json.str v)
            | none => lookupKey auth k
          else lookupKey auth k)
    ∧ createRecord "example.com"
        [("apikey", Json.str "ak_1"), ("secretapikey", Json.str "sk_1")]
        "A" "1.2.3.4" none none none
      = { url := "https://porkbun.com/api/json/v3/dns/create/example.com"
        , body := some [("apikey", Json.str "ak_1"), ("secretapikey", Json.str "sk_1"),
                        ("type", Json.str "A"), ("content", Json.str "1.2.3.4")] } := by
  refine ⟨rfl, ?_, rfl⟩
  rcases name with _ | nv <;> rcases ttl with _ | tv <;> rcases priority with _ | pv <;>
    intro k <;>
    by_cases h1 : k = "type" <;> by_cases h2 : k = "content" <;>
    by_cases h3 : k = "name" <;> by_cases h4 : k = "ttl" <;> by_cases h5 : k = "prio" <;>
    simp_all [createRecordPayload, lookupKey_dictMerge, filterNonNull, setKey, lookupKey] <;>
    simp only [if_neg (fun h : "type" = k => h1 h.symm),
      if_neg (fun h : "content" = k => h2 h.symm),
      if_neg (fun h : "name" = k => h3 h.symm),
      if_neg (fun h : "ttl" = k => h4 h.symm),
      if_neg (fun h : "prio" = k => h5 h.symm)]

/-- C2 counterexample: the explicit secret string `"k:a:b"` has the
claim's `key:secret` shape (`"k"` before the first colon, `"a:b"` after
it), yet resolution raises `ValueError` — `secrets.split(":")` yields
three pieces, which do not unpack into `key, secret` — instead of
returning the pair. -/
theorem secrets_multi_colon_counterexample :
    authFromSecrets "k:a:b" = AuthResolution.unpackError
    ∧ splitTwo ("k:a:b".toList) = none
    ∧ "k:a:b".toList = "k".toList ++ ':' :: "a:b".toList :=
  ⟨rfl, rfl, rfl⟩

/-- C2 as amended: explicit-secret resolution returns the pair `(k, v)`
exactly when the string is `k ++ ":" ++ v` with `k` and `v` colon-free —
that is, when the string contains exactly one colon; a string with no
colon (and likewise one with two or more colons) makes resolution fail
with the unpacking `ValueError`. -/
theorem secrets_split_iff_exactly_one_colon (s k v : List Char) :
    (authFromSecrets ⟨s⟩
        = AuthResolution.ok [("apikey", Json.str ⟨k⟩), ("secretapikey", Json.str ⟨v⟩)]
      ↔ s = k ++ ':' :: v ∧ ':' ∉ k ∧ ':' ∉ v)
    ∧ (':' ∉ s → authFromSecrets ⟨s⟩ = AuthResolution.unpackError) := by
  constructor
  · constructor
    · intro h
      cases hsp : splitTwo s with
      | none =>
        exfalso
        have : authFromSecrets ⟨s⟩ = AuthResolution.unpackError := by
          simp [authFromSecrets, String.toList, hsp]
        rw [this] at h
        exact AuthResolution.noConfusion h
      | some kv =>
        obtain ⟨k', v'⟩ := kv
        have hform : authFromSecrets ⟨s⟩
            = AuthResolution.ok [("apikey", Json.str ⟨k'⟩), ("secretapikey", Json.str ⟨v'⟩)] := by
          simp [authFromSecrets, String.toList, hsp]
        rw [hform] at h
        obtain ⟨hk, hv⟩ : k' = k ∧ v' = v := by
          simpa [String.ext_iff] using h
        rw [hk, hv] at hsp
        exact (pySplit_eq_pair ':' s k v).mp ((splitTwo_eq_some s k v).mp hsp)
    · rintro ⟨hs, hk, hv⟩
      have hsp : splitTwo s = some (k, v) :=
        (splitTwo_eq_some s k v).mpr ((pySplit_eq_pair ':' s k v).mpr ⟨hs, hk, hv⟩)
      simp [authFromSecrets, String.toList, hsp]
  · intro hmem
    have hsingle : pySplit ':' s = [s] := (pySplit_eq_singleton ':' s s).mpr ⟨rfl, hmem⟩
    have hsp : splitTwo s = none := by
      unfold splitTwo
      rw [hsingle]
    simp [authFromSecrets, String.toList, hsp]

end Porkpy
